import Mathlib

set_option maxRecDepth 8000
set_option exponentiation.threshold 1100

/-!
Verification development for the qzcli authentication core.

The definitions below are shallow embeddings of the Python sources
`qzcli/crypto.py`, `qzcli/config.py` and `qzcli/api.py`:
strings are `List Char` or `String`, Python integers are `Nat`/`Int`,
`time.time()` values are `ℚ`, and the on-disk cache is a map from
file names to optional file contents.
-/

namespace Qzcli

/-! ## crypto.py -/

/-- Value of one hex digit character (`int(c, 16)` for a single char).
Characters outside the hex alphabet map to 0; the embedded constants
only contain valid hex digits. -/
def hexDigitVal (c : Char) : Nat :=
  if '0' ≤ c ∧ c ≤ '9' then c.toNat - 48
  else if 'a' ≤ c ∧ c ≤ 'f' then c.toNat - 87
  else if 'A' ≤ c ∧ c ≤ 'F' then c.toNat - 55
  else 0

/-- `hex2int` from crypto.py: parse a hex string into an integer.
(The source also strips whitespace and an optional `0x` prefix; the
embedded key constants carry neither.) -/
def hex2int (s : String) : Nat :=
  s.data.foldl (fun acc c => acc * 16 + hexDigitVal c) 0

/-- The hex digit character for a value `0 ≤ m < 16`, lowercase, as
produced by Python `format(n, 'x')`. -/
def hexDigitChar (m : Nat) : Char :=
  if m < 10 then Char.ofNat (48 + m) else Char.ofNat (87 + m)

/-- Digit-accumulation loop of `format(n, 'x')`: prepend hex digits of
`n` (most significant first) to `acc`. -/
def int2hexGo (n : Nat) (acc : List Char) : List Char :=
  if h : n = 0 then acc
  else int2hexGo (n / 16) (hexDigitChar (n % 16) :: acc)
termination_by n
decreasing_by exact Nat.div_lt_self (Nat.pos_of_ne_zero h) (by norm_num)

/-- `int2hex` from crypto.py with `min_length = 0`: lowercase hex of a
number, no leading zeros, `"0"` for zero. -/
def int2hex (n : Nat) : List Char :=
  if n = 0 then ['0'] else int2hexGo n []

/-- Python `int.bit_length()`: number of bits needed to represent `n`,
0 for 0. -/
def bitLength (n : Nat) : Nat :=
  if n = 0 then 0 else Nat.log2 n + 1

/-- `CustomRSA._bi_high_index` from crypto.py. -/
def biHighIndex (n : Nat) : Nat :=
  if n = 0 then 0 else (bitLength n + 15) / 16 - 1

/-- The chunk size derived from a modulus in `CustomRSA.__init__`:
`self.chunk_size = 2 * self._bi_high_index(self.modulus)`. -/
def chunkSizeOfModulus (n : Nat) : Nat :=
  2 * biHighIndex n

/-- The state built by `CustomRSA.__init__` from the two hex constants. -/
structure RSAKey where
  modulus : Nat
  exponent : Nat
  chunkSize : Nat
deriving DecidableEq

/-- `CustomRSA.__init__`. -/
def mkRSAKey (modulusHex exponentHex : String) : RSAKey :=
  let m := hex2int modulusHex
  ⟨m, hex2int exponentHex, chunkSizeOfModulus m⟩

/-- `PasswordEncryptor.MODULUS`. -/
def MODULUS : String :=
  "008aed7e057fe8f14c73550b0e6467b023616ddc8fa91846d2613cdb7f7621e3cada4cd5d812d627af6b87727ade4e26d26208b7326815941492b2204c3167ab2d53df1e3a2c9153bdb7c8c2e968df97a5e7e01cc410f92c4c2c2fba529b3ee988ebc1fca99ff5119e036d732c368acf8beba01aa2fdafa45b21e4de4928d0d403"

/-- `PasswordEncryptor.EXPONENT`. -/
def EXPONENT : String := "010001"

/-- The embedded production key (`PasswordEncryptor.__init__`). -/
def prodKey : RSAKey := mkRSAKey MODULUS EXPONENT

/-- The zero-padding `while` loop of `encrypt_string`:
`while len(byte_array) % self.chunk_size != 0: byte_array.append(0)`.
(The `c ≠ 0` guard is needed for termination; Python raises
`ZeroDivisionError` on `% 0`, and the production chunk size is 126.) -/
def padLoop (a : List Nat) (c : Nat) : List Nat :=
  if h : c ≠ 0 ∧ a.length % c ≠ 0 then padLoop (a ++ [0]) c else a
termination_by (c - a.length % c) % c
decreasing_by
  simp only [List.length_append, List.length_cons, List.length_nil]
  obtain ⟨hc, hr⟩ := h
  have hcpos : 0 < c := Nat.pos_of_ne_zero hc
  have hrlt : a.length % c < c := Nat.mod_lt _ hcpos
  have hc2 : 2 ≤ c := by
    rcases Nat.lt_or_ge c 2 with hlt | hge
    · have hone : c = 1 := by omega
      rw [hone, Nat.mod_one] at hr
      exact absurd rfl hr
    · exact hge
  have h1 : (a.length + (0 + 1)) % c = (a.length % c + 1) % c := by
    conv_lhs => rw [show a.length + (0 + 1) = a.length + 1 by omega, Nat.add_mod]
    rw [Nat.mod_eq_of_lt (by omega : 1 < c)]
  rcases Nat.lt_or_ge (a.length % c + 1) c with hlt | hge
  · rw [h1, Nat.mod_eq_of_lt hlt]
    rw [Nat.mod_eq_of_lt (by omega : c - (a.length % c + 1) < c),
      Nat.mod_eq_of_lt (by omega : c - a.length % c < c)]
    omega
  · have heq : a.length % c + 1 = c := by omega
    rw [h1, heq, Nat.mod_self, Nat.sub_zero, Nat.mod_self,
      Nat.mod_eq_of_lt (by omega : c - a.length % c < c)]
    omega

/-- The loop body of `CustomRSA._encode_block`: iterate over
`range(start, start + chunk_size, 2)` (`steps` iterations left, current
index `k`, current `digit_index` `d`), reading a missing byte as 0. -/
def encodeBlockGo (a : List Nat) (k steps d : Nat) : Nat :=
  match steps with
  | 0 => 0
  | s + 1 =>
      ((a.getD k 0 + (a.getD (k + 1) 0) <<< 8) <<< (16 * d)) +
        encodeBlockGo a (k + 2) s (d + 1)

/-- `CustomRSA._encode_block`: the `for k in range(start, start +
chunk_size, 2)` loop runs `⌈chunk_size / 2⌉` times. -/
def encodeBlock (a : List Nat) (start chunkSize : Nat) : Nat :=
  encodeBlockGo a start ((chunkSize + 1) / 2) 0

/-- `CustomRSA._pow_mod`: Python `pow(base, exp, mod)`. -/
def powMod (b e m : Nat) : Nat := b ^ e % m

/-- Python `' '.join(parts)`. -/
def joinSpaces : List (List Char) → List Char
  | [] => []
  | [x] => x
  | x :: y :: t => x ++ ' ' :: joinSpaces (y :: t)

/-- `CustomRSA.encrypt_string`: bytes are the character code points
(`ord(c)`), zero-padded to a multiple of the chunk size, encoded block
by block (block index `bi` corresponds to start offset
`bi * chunk_size` of `range(0, len(byte_array), chunk_size)`),
exponentiated modulo the modulus, hex-encoded, and joined with spaces. -/
def encryptString (key : RSAKey) (pt : List Char) : List Char :=
  if pt = [] then []
  else
    let a := padLoop (pt.map Char.toNat) key.chunkSize
    joinSpaces ((List.range ((a.length + key.chunkSize - 1) / key.chunkSize)).map
      (fun bi => int2hex (powMod (encodeBlock a (bi * key.chunkSize) key.chunkSize)
        key.exponent key.modulus)))

/-- The hex alphabet of `PasswordEncryptor.is_encrypted`. -/
def hexAlphabet : List Char := "0123456789abcdefABCDEF".toList

/-- `PasswordEncryptor.is_encrypted`. -/
def isEncrypted (pt : List Char) : Bool :=
  decide (254 ≤ pt.length) && decide (pt.length ≤ 256) &&
    pt.all (fun c => hexAlphabet.contains c)

/-- Python `s.replace(' ', '')`. -/
def removeSpaces (l : List Char) : List Char :=
  l.filter (fun c => c != ' ')

/-- `PasswordEncryptor.encrypt` with the embedded production key
(this is also `encrypt_password`). -/
def pwEncrypt (pt : List Char) : List Char :=
  if isEncrypted pt then pt else removeSpaces (encryptString prodKey pt)

/-! Spec-side restatement of the §4.1 encryption contract, used for the
refinement claim C1.  These definitions follow the words of the spec:
right-pad with zero bytes until the length is a multiple of the chunk
size; for each block, pack consecutive byte pairs little-endian into
16-bit digits and assemble `Σ digit_i << 16·i` (a missing trailing byte
counts as zero); raise to the exponent modulo the modulus; hex-encode
and concatenate the blocks in order. -/

/-- Spec §4.1: the zero-padded byte sequence (closed form). -/
def specPadded (a : List Nat) (c : Nat) : List Nat :=
  a ++ List.replicate ((c - a.length % c) % c) 0

/-- Spec §4.1: the value of the block starting at `start`, as the sum
of little-endian 16-bit digits shifted by `16·j`. -/
def specBlockVal (a : List Nat) (start c : Nat) : Nat :=
  ∑ j in Finset.range ((c + 1) / 2),
    (a.getD (start + 2 * j) 0 + 256 * a.getD (start + 2 * j + 1) 0) * 2 ^ (16 * j)

/-- Spec §4.1: hex encodings of the per-block modular powers,
concatenated in block order with no separator. -/
def specEncrypt (key : RSAKey) (pt : List Char) : List Char :=
  let a := specPadded (pt.map Char.toNat) key.chunkSize
  ((List.range ((a.length + key.chunkSize - 1) / key.chunkSize)).map
    (fun bi => int2hex (specBlockVal a (bi * key.chunkSize) key.chunkSize ^ key.exponent
      % key.modulus))).flatten

/-! ## config.py — the on-disk credential cache

The cache directory is modelled as a map from file names to optional
file contents.  `FileData.truncated` is an empty file (as left behind
by `open(path, "w")` before anything is written); `FileData.corrupt`
is any content that `json.load` rejects.  `time.time()` is a rational. -/

/-- Possible contents of a cache file. -/
inductive FileData where
  | truncated
  | corrupt
  | tokenRec (token : String) (expires_at : ℚ)
  | cookieRec (cookie : String) (workspace_id : String) (saved_at : ℚ)
deriving DecidableEq

/-- The file system visible to config.py. -/
def FS : Type := String → Option FileData

/-- `TOKEN_CACHE_FILE = CONFIG_DIR / ".token_cache"`. -/
def TOKEN_CACHE_FILE : String := ".qzcli/.token_cache"

/-- `COOKIE_FILE = CONFIG_DIR / ".cookie"`. -/
def COOKIE_FILE : String := ".qzcli/.cookie"

/-- Replace the contents of one file. -/
def writeFile (p : String) (d : FileData) (fs : FS) : FS :=
  fun q => if q = p then some d else fs q

/-- `Path.unlink` (deleting a missing file is a no-op here, matching
the `if FILE.exists(): FILE.unlink()` pattern in the source). -/
def unlinkFile (p : String) (fs : FS) : FS :=
  fun q => if q = p then none else fs q

/-- `open(path, "w")`: truncates the file in place. -/
def pyOpenTruncate (p : String) (fs : FS) : FS :=
  writeFile p FileData.truncated fs

/-- `save_token_cache(token, expires_in)`: writes
`{"token": token, "expires_at": time.time() + expires_in}`. -/
def save_token_cache (token : String) (expires_in now : ℚ) (fs : FS) : FS :=
  writeFile TOKEN_CACHE_FILE (FileData.tokenRec token (now + expires_in)) fs

/-- `clear_token_cache()`. -/
def clear_token_cache (fs : FS) : FS :=
  unlinkFile TOKEN_CACHE_FILE fs

/-- `save_cookie(cookie, workspace_id)`: writes
`{"cookie": ..., "workspace_id": ..., "saved_at": time.time()}`. -/
def save_cookie (cookie workspace_id : String) (now : ℚ) (fs : FS) : FS :=
  writeFile COOKIE_FILE (FileData.cookieRec cookie workspace_id now) fs

/-- `clear_cookie()`. -/
def clear_cookie (fs : FS) : FS :=
  unlinkFile COOKIE_FILE fs

/-- `get_token_cache()`: `None` if the file is missing; the
`json.JSONDecodeError`/`IOError` handler returns `None` for unreadable
contents; a parsed record is returned only when
`cache.get("expires_at", 0) > time.time() + 300` (for a JSON object
without an `expires_at` key the default 0 is compared). -/
def get_token_cache (fs : FS) (now : ℚ) : Option FileData :=
  match fs TOKEN_CACHE_FILE with
  | none => none
  | some FileData.truncated => none
  | some FileData.corrupt => none
  | some (FileData.tokenRec t e) =>
      if e > now + 300 then some (FileData.tokenRec t e) else none
  | some (FileData.cookieRec c w sa) =>
      if (0 : ℚ) > now + 300 then some (FileData.cookieRec c w sa) else none

/-- `get_cookie()`: `None` if missing or unparseable, otherwise the
parsed JSON record as-is. -/
def get_cookie (fs : FS) : Option FileData :=
  match fs COOKIE_FILE with
  | none => none
  | some FileData.truncated => none
  | some FileData.corrupt => none
  | some d => some d

/-- The sequence of file-system states a concurrent reader can observe
while `save_token_cache` runs: the original state, the state after
`open(TOKEN_CACHE_FILE, "w")` truncated the file, and the state after
`json.dump` wrote the record. -/
def save_token_cache_trace (token : String) (expires_in now : ℚ) (fs : FS) : List FS :=
  [fs,
   pyOpenTruncate TOKEN_CACHE_FILE fs,
   writeFile TOKEN_CACHE_FILE (FileData.tokenRec token (now + expires_in))
     (pyOpenTruncate TOKEN_CACHE_FILE fs)]

/-- The observable states while `save_cookie` runs. -/
def save_cookie_trace (cookie workspace_id : String) (now : ℚ) (fs : FS) : List FS :=
  [fs,
   pyOpenTruncate COOKIE_FILE fs,
   writeFile COOKIE_FILE (FileData.cookieRec cookie workspace_id now)
     (pyOpenTruncate COOKIE_FILE fs)]

/-! ## api.py — bearer token exchange and the auth-retry executor

`QzAPI._get_token` / `QzAPI._request`, specialised to the path the
retry claim is about: credentials are configured and the token
endpoint answers successfully, producing the tokens `freshTokens 0`,
`freshTokens 1`, … on successive fetches.  The business endpoint
answers the `i`-th POST with business code `responses i`. -/

/-- The token state of a `QzAPI` instance plus the cache file content
seen by `_get_token`: `memToken` is `self._token`, `cacheToken` is the
token field of a cache hit (`None` on miss). -/
structure ExecState where
  memToken : Option String
  cacheToken : Option String
deriving DecidableEq

/-- Result of `_get_token()`: the token handed back, the updated state
(memory and cache after `save_token_cache`), and the number of token
fetches performed so far. -/
structure TokenFetch where
  token : String
  state : ExecState
  fetchCount : Nat
deriving DecidableEq

/-- `QzAPI._get_token(force_refresh=False)`: memory copy if present,
else cache hit, else POST to the token endpoint (modelled as drawing
`freshTokens fc`) followed by `save_token_cache`. -/
def getTokenNF (freshTokens : Nat → String) (s : ExecState) (fc : Nat) : TokenFetch :=
  match s.memToken with
  | some t => ⟨t, s, fc⟩
  | none =>
      match s.cacheToken with
      | some t => ⟨t, ⟨some t, s.cacheToken⟩, fc⟩
      | none =>
          let t := freshTokens fc
          ⟨t, ⟨some t, some t⟩, fc + 1⟩

/-- Outcome of `QzAPI._request`: the surfaced result (`Except.error c`
is `QzAPIError` with business code `c`), the final token state, the
final fetch count, the bearer tokens attached to the endpoint POSTs in
order, and whether `clear_token_cache` was called. -/
structure RequestOutcome where
  result : Except Int Int
  finalState : ExecState
  fetchCount : Nat
  tokensUsed : List String
  cacheCleared : Bool

/-- `QzAPI._request(endpoint, data, retry_on_auth_error=False)`: the
recursive call of the retry branch.  With the flag false the
`result.get("code") == -1 and retry_on_auth_error` branch can never be
taken, so any non-zero code raises. `callIdx` indexes this endpoint
POST in `responses`. -/
def requestNoRetry (freshTokens : Nat → String) (responses : Nat → Int)
    (s : ExecState) (fc callIdx : Nat) : RequestOutcome :=
  let t := getTokenNF freshTokens s fc
  let code := responses callIdx
  if code ≠ 0 then ⟨Except.error code, t.state, t.fetchCount, [t.token], false⟩
  else ⟨Except.ok code, t.state, t.fetchCount, [t.token], false⟩

/-- `QzAPI._request(endpoint, data)` (the default
`retry_on_auth_error=True` entry point, so this call uses `responses 0`
and a retry uses `responses 1`): on business code -1 it runs
`clear_token_cache()`, sets `self._token = None`, and re-issues the
request once with the retry flag off. -/
def request (freshTokens : Nat → String) (responses : Nat → Int)
    (s : ExecState) (fc : Nat) : RequestOutcome :=
  let t := getTokenNF freshTokens s fc
  let code := responses 0
  if code = -1 then
    let o := requestNoRetry freshTokens responses ⟨none, none⟩ t.fetchCount 1
    ⟨o.result, o.finalState, o.fetchCount, t.token :: o.tokensUsed, true⟩
  else if code ≠ 0 then ⟨Except.error code, t.state, t.fetchCount, [t.token], false⟩
  else ⟨Except.ok code, t.state, t.fetchCount, [t.token], false⟩

/-! ## api.py — `login_with_cas` (SSO flow) -/

/-- Python `a in s` for `s : String` (contiguous substring test):
`leadsWith p l` says `p` is an initial run of `l`. -/
def leadsWith : List Char → List Char → Bool
  | [], _ => true
  | _ :: _, [] => false
  | a :: as, b :: bs => a = b && leadsWith as bs

/-- Substring occurrence anywhere in the list. -/
def occursIn (sub : List Char) : List Char → Bool
  | [] => leadsWith sub []
  | b :: bs => leadsWith sub (b :: bs) || occursIn sub bs

/-- Python `sub in s` on strings. -/
def pyInStr (sub s : String) : Bool := occursIn sub.data s.data

/-- One cookie of the `requests.Session` jar. -/
structure JarCookie where
  domain : String
  name : String
  value : String
deriving DecidableEq

/-- The `qz_cookies` dict built in `login_with_cas`: name/value pairs
of the jar cookies whose domain contains `"qz.sii.edu.cn"`. -/
def qzCookiesOf (jar : List JarCookie) : List (String × String) :=
  (jar.filter (fun c => pyInStr "qz.sii.edu.cn" c.domain)).map (fun c => (c.name, c.value))

/-- Python `k in d` for the dict of collected cookies. -/
def hasKey (cs : List (String × String)) (k : String) : Bool :=
  (cs.map Prod.fst).contains k

/-- Python `"; ".join(parts)`. -/
def joinSemi : List String → String
  | [] => ""
  | [x] => x
  | x :: y :: t => x ++ "; " ++ joinSemi (y :: t)

/-- The cookie header string `"k1=v1; k2=v2; ..."`. -/
def cookieHeader (cs : List (String × String)) : String :=
  joinSemi (cs.map (fun kv => kv.1 ++ "=" ++ kv.2))

/-- The distinct `QzAPIError` raise sites of `login_with_cas`, one
constructor per raise site (the spec's SSO failure kinds). -/
inductive CasError where
  | connectFailed
  | brokerEntryNotFound
  | casPageNotReached (currentUrl : String)
  | badCredentials
  | captchaRequired
  | loginRejected
  | sessionNotEstablished
deriving DecidableEq

/-- Where the Start state of the flow goes after the redirect-following
GET of the target root. -/
inductive Step1Result where
  | success (cookieStr : String)
  | toBroker
  | toCAS
  | failure (e : CasError)
deriving DecidableEq

/-- Steps 1–3 of `login_with_cas`, as a function of the landing URL,
its host (`urlparse(url).netloc`) and the cookie jar: if the host is
`qz.sii.edu.cn` and the jar has a `session` cookie for that domain,
return the cookie string; else if the URL contains `"keycloak"`,
continue with the broker page; else if the URL does not contain
`"cas.sii.edu.cn"`, raise `未能到达 CAS 登录页面` (the CAS-page-not-reached
error); otherwise the flow is already on the CAS login page. -/
def casLoginStep1 (currentUrl currentHost : String) (jar : List JarCookie) : Step1Result :=
  if currentHost = "qz.sii.edu.cn" ∧ hasKey (qzCookiesOf jar) "session" then
    Step1Result.success (cookieHeader (qzCookiesOf jar))
  else if pyInStr "keycloak" currentUrl then Step1Result.toBroker
  else if ¬ pyInStr "cas.sii.edu.cn" currentUrl then
    Step1Result.failure (CasError.casPageNotReached currentUrl)
  else Step1Result.toCAS

/-- The wrong-credentials markers of Step 6. -/
def wrongCredMarker1 : String := "用户名或密码错误"

/-- Second wrong-credentials marker. -/
def wrongCredMarker2 : String := "账号或密码错误"

/-- The CAPTCHA marker of Step 6. -/
def captchaMarker : String := "验证码"

/-- The body classification inside Step 6 of `login_with_cas`:
wrong-credentials markers first, then the CAPTCHA marker, then the
generic rejection. Each branch raises, so no retry can follow. -/
def classifyLoginFailure (body : String) : CasError :=
  if pyInStr wrongCredMarker1 body ∨ pyInStr wrongCredMarker2 body then
    CasError.badCredentials
  else if pyInStr captchaMarker body then CasError.captchaRequired
  else CasError.loginRejected

/-- Step 6 of `login_with_cas`: after the form POST, if the final URL
contains `"cas.sii.edu.cn"` and `"login"`, the login was rejected and
the body is classified; otherwise the flow continues (no failure
raised here). -/
def casSubmittedCheck (currentUrl body : String) : Option CasError :=
  if pyInStr "cas.sii.edu.cn" currentUrl ∧ pyInStr "login" currentUrl then
    some (classifyLoginFailure body)
  else none

/-! ## Helper lemmas -/

theorem padMeasureStep (c len : Nat) (hc : c ≠ 0) (hr : len % c ≠ 0) :
    (c - (len + 1) % c) % c + 1 = (c - len % c) % c := by
  have hcpos : 0 < c := Nat.pos_of_ne_zero hc
  have hrlt : len % c < c := Nat.mod_lt _ hcpos
  have hc2 : 2 ≤ c := by
    rcases Nat.lt_or_ge c 2 with hlt | hge
    · have hone : c = 1 := by omega
      rw [hone, Nat.mod_one] at hr
      exact absurd rfl hr
    · exact hge
  have h1 : (len + 1) % c = (len % c + 1) % c := by
    conv_lhs => rw [Nat.add_mod]
    rw [Nat.mod_eq_of_lt (by omega : 1 < c)]
  rcases Nat.lt_or_ge (len % c + 1) c with hlt | hge
  · rw [h1, Nat.mod_eq_of_lt hlt,
      Nat.mod_eq_of_lt (by omega : c - (len % c + 1) < c),
      Nat.mod_eq_of_lt (by omega : c - len % c < c)]
    omega
  · have heq : len % c + 1 = c := by omega
    rw [h1, heq, Nat.mod_self, Nat.sub_zero, Nat.mod_self,
      Nat.mod_eq_of_lt (by omega : c - len % c < c)]
    omega

theorem padLoop_closed (c : Nat) (hc : c ≠ 0) :
    ∀ (m : Nat) (a : List Nat), (c - a.length % c) % c = m →
      padLoop a c = a ++ List.replicate m 0 := by
  intro m
  induction m with
  | zero =>
      intro a hm
      have hr : a.length % c = 0 := by
        by_contra hr
        have hcpos : 0 < c := Nat.pos_of_ne_zero hc
        have hrlt : a.length % c < c := Nat.mod_lt _ hcpos
        rw [Nat.mod_eq_of_lt (by omega : c - a.length % c < c)] at hm
        omega
      rw [padLoop, dif_neg (fun h => h.2 hr)]
      simp
  | succ m ih =>
      intro a hm
      have hr : a.length % c ≠ 0 := by
        intro hr0
        rw [hr0, Nat.sub_zero, Nat.mod_self] at hm
        omega
      rw [padLoop, dif_pos ⟨hc, hr⟩]
      have hlen : (a ++ [0]).length = a.length + 1 := by simp
      have hstep : (c - (a ++ [0]).length % c) % c = m := by
        have h2 := padMeasureStep c a.length hc hr
        rw [hm] at h2
        rw [hlen]
        omega
      rw [ih _ hstep, List.append_assoc]
      congr 1

theorem padLoop_eq (a : List Nat) (c : Nat) (hc : c ≠ 0) :
    padLoop a c = specPadded a c := by
  rw [specPadded]
  exact padLoop_closed c hc _ a rfl

theorem encodeBlockGo_sum (a : List Nat) :
    ∀ (steps k d : Nat),
      encodeBlockGo a k steps d =
        ∑ j in Finset.range steps,
          (a.getD (k + 2 * j) 0 + 256 * a.getD (k + 2 * j + 1) 0) * 2 ^ (16 * (d + j)) := by
  intro steps
  induction steps with
  | zero => intro k d; simp [encodeBlockGo]
  | succ s ih =>
      intro k d
      have hhead : ((a.getD k 0 + (a.getD (k + 1) 0) <<< 8) <<< (16 * d)) =
          (a.getD (k + 2 * 0) 0 + 256 * a.getD (k + 2 * 0 + 1) 0) * 2 ^ (16 * (d + 0)) := by
        simp only [Nat.shiftLeft_eq, Nat.mul_zero, Nat.add_zero]
        ring
      have hrest : encodeBlockGo a (k + 2) s (d + 1) =
          ∑ j in Finset.range s,
            (a.getD (k + 2 * (j + 1)) 0 + 256 * a.getD (k + 2 * (j + 1) + 1) 0) *
              2 ^ (16 * (d + (j + 1))) := by
        rw [ih (k + 2) (d + 1)]
        apply Finset.sum_congr rfl
        intro j _
        rw [show k + 2 + 2 * j = k + 2 * (j + 1) from by ring,
          show d + 1 + j = d + (j + 1) from by ring]
      rw [show encodeBlockGo a k (s + 1) d =
          ((a.getD k 0 + (a.getD (k + 1) 0) <<< 8) <<< (16 * d)) +
            encodeBlockGo a (k + 2) s (d + 1) from rfl]
      rw [hhead, hrest, Finset.sum_range_succ']
      exact Nat.add_comm _ _

theorem encodeBlock_eq_spec (a : List Nat) (s c : Nat) :
    encodeBlock a s c = specBlockVal a s c := by
  rw [encodeBlock, specBlockVal, encodeBlockGo_sum]
  apply Finset.sum_congr rfl
  intro j _
  rw [Nat.zero_add]

theorem hexDigitChar_ne_space : ∀ m < 16, hexDigitChar m ≠ ' ' := by decide

theorem int2hexGo_chars (n : Nat) : ∀ (acc : List Char),
    (∀ ch ∈ acc, ch ≠ ' ') → ∀ ch ∈ int2hexGo n acc, ch ≠ ' ' := by
  induction n using Nat.strong_induction_on with
  | _ n ih =>
      intro acc hacc ch hch
      rw [int2hexGo] at hch
      by_cases h : n = 0
      · rw [dif_pos h] at hch
        exact hacc ch hch
      · rw [dif_neg h] at hch
        have hlt : n / 16 < n := Nat.div_lt_self (Nat.pos_of_ne_zero h) (by norm_num)
        refine ih (n / 16) hlt (hexDigitChar (n % 16) :: acc) ?_ ch hch
        intro c hcmem
        rcases List.mem_cons.mp hcmem with hh | ht
        · rw [hh]
          exact hexDigitChar_ne_space (n % 16) (Nat.mod_lt _ (by norm_num))
        · exact hacc c ht

theorem int2hex_ne_space (n : Nat) : ∀ ch ∈ int2hex n, ch ≠ ' ' := by
  rw [int2hex]
  by_cases h : n = 0
  · rw [if_pos h]
    intro ch hch
    rw [List.mem_singleton.mp hch]
    decide
  · rw [if_neg h]
    exact int2hexGo_chars n [] (by intro c hc; exact absurd hc (List.not_mem_nil c))

theorem filter_ne_space_eq_self (l : List Char) (h : ∀ ch ∈ l, ch ≠ ' ') :
    List.filter (fun c => c != ' ') l = l := by
  apply List.filter_eq_self.mpr
  intro a ha
  exact bne_iff_ne.mpr (h a ha)

theorem removeSpaces_joinSpaces : ∀ (L : List (List Char)),
    (∀ p ∈ L, ∀ ch ∈ p, ch ≠ ' ') → removeSpaces (joinSpaces L) = L.flatten := by
  intro L
  induction L with
  | nil => intro _; simp [joinSpaces, removeSpaces]
  | cons p t ih =>
      intro h
      cases t with
      | nil =>
          rw [show joinSpaces [p] = p from rfl, removeSpaces,
            filter_ne_space_eq_self p (h p (List.mem_cons_self p _))]
          simp
      | cons q t2 =>
          have hp := filter_ne_space_eq_self p (h p (List.mem_cons_self p _))
          have ht := ih (fun r hr => h r (List.mem_cons_of_mem p hr))
          rw [removeSpaces] at ht ⊢
          rw [show joinSpaces (p :: q :: t2) = p ++ ' ' :: joinSpaces (q :: t2) from rfl,
            List.filter_append, hp, List.filter_cons]
          simp only [show ((' ' != ' ') = true) = False from by simp]
          rw [if_neg (by simp), ht]
          simp

theorem encrypt_refines (key : RSAKey) (hc : key.chunkSize ≠ 0) (pt : List Char) :
    removeSpaces (encryptString key pt) = specEncrypt key pt := by
  by_cases hpt : pt = []
  · subst hpt
    have hzero : (key.chunkSize - 1) / key.chunkSize = 0 := Nat.div_eq_of_lt (by omega)
    simp [encryptString, removeSpaces, specEncrypt, specPadded, hzero]
  · simp only [encryptString, specEncrypt, if_neg hpt]
    rw [padLoop_eq _ _ hc]
    rw [removeSpaces_joinSpaces]
    · congr 1
      apply List.map_congr_left
      intro bi _
      rw [encodeBlock_eq_spec, powMod]
    · intro p hp ch hch
      obtain ⟨bi, _, rfl⟩ := List.mem_map.mp hp
      exact int2hex_ne_space _ ch hch

theorem hex2int_MODULUS_ne_zero : hex2int MODULUS ≠ 0 := by decide

theorem prodKey_chunkSize_eq : prodKey.chunkSize = 126 := by
  have h0 : hex2int MODULUS ≠ 0 := hex2int_MODULUS_ne_zero
  have h1 : (2 : Nat) ^ 1023 ≤ hex2int MODULUS := by decide
  have h2 : hex2int MODULUS < 2 ^ 1024 := by decide
  have hlog : Nat.log2 (hex2int MODULUS) = 1023 := by
    have ha := (Nat.le_log2 h0).mpr h1
    have hb := (Nat.log2_lt h0).mpr h2
    omega
  show chunkSizeOfModulus (hex2int MODULUS) = 126
  rw [chunkSizeOfModulus, biHighIndex, if_neg h0, bitLength, if_neg h0, hlog]

theorem ceilDiv16 (B : Nat) : (⌈(B : ℚ) / 16⌉).toNat = (B + 15) / 16 := by
  have hq := Nat.div_add_mod (B + 15) 16
  have hm : (B + 15) % 16 < 16 := Nat.mod_lt _ (by norm_num)
  set q := (B + 15) / 16 with hqdef
  have h1 : B ≤ 16 * q := by omega
  have h2 : 16 * q < B + 16 := by omega
  have hceil : ⌈(B : ℚ) / 16⌉ = (q : ℤ) := by
    rw [Int.ceil_eq_iff]
    constructor
    · rw [show ((q : ℤ) : ℚ) = (q : ℚ) from by push_cast; ring,
        lt_div_iff₀ (by norm_num : (0 : ℚ) < 16)]
      have hcast : (16 * q : ℚ) < (B : ℚ) + 16 := by exact_mod_cast h2
      linarith
    · rw [show ((q : ℤ) : ℚ) = (q : ℚ) from by push_cast; ring,
        div_le_iff₀ (by norm_num : (0 : ℚ) < 16)]
      have hcast : (B : ℚ) ≤ 16 * (q : ℚ) := by exact_mod_cast h1
      linarith
  rw [hceil]
  exact Int.toNat_natCast q

/-! ## Claim theorems -/

/-- C1: for every plaintext that does not satisfy the already-encrypted
invariant, `PasswordEncryptor.encrypt` (with the embedded production
key) converts it to one byte per character code point, right-pads with
zero bytes to a multiple of the chunk size, packs consecutive byte
pairs little-endian into 16-bit digits (a missing trailing byte counts
as zero), assembles each block as `Σ digit_i << 16·i`, raises it to the
exponent modulo the modulus, and returns the hex encodings of the block
results concatenated in block order — i.e. it agrees with the spec-side
`specEncrypt`. -/
theorem c1_encrypt_matches_spec (pt : List Char) (h : isEncrypted pt = false) :
    pwEncrypt pt = specEncrypt prodKey pt := by
  rw [pwEncrypt, if_neg (by rw [h]; exact Bool.false_ne_true)]
  exact encrypt_refines prodKey (by rw [prodKey_chunkSize_eq]; norm_num) pt

/-- Witness for C1 at the concrete plaintext "ab". -/
theorem c1_encrypt_matches_spec_witness :
    isEncrypted "ab".toList = false ∧
      pwEncrypt "ab".toList = specEncrypt prodKey "ab".toList :=
  ⟨by decide, c1_encrypt_matches_spec _ (by decide)⟩

/-- C3: every string of length 254–256 consisting only of hex digits is
treated as already encrypted and passed through `encrypt` unchanged. -/
theorem c3_already_encrypted_passthrough (pt : List Char)
    (h1 : 254 ≤ pt.length) (h2 : pt.length ≤ 256)
    (h3 : ∀ c ∈ pt, c ∈ hexAlphabet) :
    pwEncrypt pt = pt := by
  have henc : isEncrypted pt = true := by
    rw [isEncrypted]
    simp only [Bool.and_eq_true, decide_eq_true_eq, List.all_eq_true]
    refine ⟨⟨h1, h2⟩, ?_⟩
    intro c hc
    simpa using h3 c hc
  rw [pwEncrypt, if_pos henc]

/-- Witness for C3 at a 254-character hex string. -/
theorem c3_already_encrypted_passthrough_witness :
    (254 ≤ (List.replicate 254 '0').length ∧ (List.replicate 254 '0').length ≤ 256 ∧
      ∀ c ∈ List.replicate 254 '0', c ∈ hexAlphabet) ∧
      pwEncrypt (List.replicate 254 '0') = List.replicate 254 '0' :=
  ⟨⟨by decide, by decide, by decide⟩,
    c3_already_encrypted_passthrough _ (by decide) (by decide) (by decide)⟩

/-- C4: for every nonzero modulus, the derived chunk size equals
`2 * (⌈bit_length / 16⌉ - 1)` bytes. -/
theorem c4_chunk_size_formula (n : Nat) (h : n ≠ 0) :
    chunkSizeOfModulus n = 2 * ((⌈(bitLength n : ℚ) / 16⌉).toNat - 1) := by
  rw [chunkSizeOfModulus, biHighIndex, if_neg h, ceilDiv16]

/-- Witness for C4 at the embedded production modulus. -/
theorem c4_chunk_size_formula_witness :
    prodKey.modulus ≠ 0 ∧
      chunkSizeOfModulus prodKey.modulus =
        2 * ((⌈(bitLength prodKey.modulus : ℚ) / 16⌉).toNat - 1) :=
  ⟨by decide, c4_chunk_size_formula _ (by decide)⟩

theorem requestNoRetry_tokensUsed (freshTokens : Nat → String) (responses : Nat → Int)
    (s : ExecState) (fc callIdx : Nat) :
    (requestNoRetry freshTokens responses s fc callIdx).tokensUsed =
      [(getTokenNF freshTokens s fc).token] := by
  rw [requestNoRetry]
  split <;> rfl

theorem requestNoRetry_result (freshTokens : Nat → String) (responses : Nat → Int)
    (s : ExecState) (fc callIdx : Nat) :
    (requestNoRetry freshTokens responses s fc callIdx).result =
      if responses callIdx ≠ 0 then Except.error (responses callIdx)
      else Except.ok (responses callIdx) := by
  rw [requestNoRetry]
  split <;> rfl

/-- C2: on business code -1 the executor clears the token cache and
retries exactly once with a freshly fetched token; a second failure is
surfaced as an error, and no invocation ever performs more than two
HTTP calls to the endpoint. -/
theorem c2_auth_retry (freshTokens : Nat → String) (responses : Nat → Int)
    (s : ExecState) (fc : Nat) :
    (request freshTokens responses s fc).tokensUsed.length ≤ 2 ∧
    (responses 0 = -1 →
      (request freshTokens responses s fc).cacheCleared = true ∧
      (request freshTokens responses s fc).tokensUsed =
        [(getTokenNF freshTokens s fc).token,
         freshTokens (getTokenNF freshTokens s fc).fetchCount] ∧
      (responses 1 = 0 → (request freshTokens responses s fc).result = Except.ok 0) ∧
      (responses 1 ≠ 0 →
        (request freshTokens responses s fc).result = Except.error (responses 1))) := by
  constructor
  · by_cases h0 : responses 0 = -1
    · simp [request, if_pos h0, requestNoRetry_tokensUsed]
    · by_cases h1 : responses 0 ≠ 0 <;>
        simp [request, if_neg h0, h1]
  · intro h0
    refine ⟨?_, ?_, ?_, ?_⟩
    · simp only [request, if_pos h0]
    · simp only [request, if_pos h0, requestNoRetry_tokensUsed]
      rfl
    · intro h1
      simp only [request, if_pos h0, requestNoRetry_result, h1]
      simp
    · intro h1
      simp only [request, if_pos h0, requestNoRetry_result, if_pos h1]

/-- Witness for C2: the endpoint answers -1 once then succeeds. -/
theorem c2_auth_retry_witness :
    (request (fun _ => "fresh") (fun i => if i = 0 then -1 else 0) ⟨none, none⟩ 0).cacheCleared
        = true ∧
      (request (fun _ => "fresh") (fun i => if i = 0 then -1 else 0) ⟨none, none⟩ 0).result
        = Except.ok 0 ∧
      (request (fun _ => "fresh") (fun i => if i = 0 then -1 else 0) ⟨none, none⟩ 0).tokensUsed.length
        = 2 := by
  have h := c2_auth_retry (fun _ => "fresh") (fun i => if i = 0 then -1 else 0) ⟨none, none⟩ 0
  have h2 := h.2 (by decide)
  exact ⟨h2.1, h2.2.2.1 (by decide), by rw [h2.2.1]; rfl⟩

/-- C5: `get_token_cache` returns the stored token iff its recorded
`expires_at` is strictly greater than `now + 300`; at or past that
boundary it reports a miss.  In particular a token saved with
`ttl_seconds = 310` is returned while less than 10 seconds have
elapsed and is a miss at or after 10 seconds. -/
theorem c5_token_expiry (tok : String) (expAt now now0 d : ℚ) (fs : FS)
    (hfile : fs TOKEN_CACHE_FILE = some (FileData.tokenRec tok expAt)) :
    (get_token_cache fs now = some (FileData.tokenRec tok expAt) ↔ expAt > now + 300) ∧
    (¬ expAt > now + 300 → get_token_cache fs now = none) ∧
    (d < 10 → get_token_cache (save_token_cache tok 310 now0 fs) (now0 + d) =
      some (FileData.tokenRec tok (now0 + 310))) ∧
    (10 ≤ d → get_token_cache (save_token_cache tok 310 now0 fs) (now0 + d) = none) := by
  have hsaved : (save_token_cache tok 310 now0 fs) TOKEN_CACHE_FILE =
      some (FileData.tokenRec tok (now0 + 310)) := by
    simp [save_token_cache, writeFile]
  refine ⟨?_, ?_, ?_, ?_⟩
  · by_cases hgt : expAt > now + 300
    · simp [get_token_cache, hfile, hgt]
    · simp [get_token_cache, hfile, hgt]
  · intro hn
    simp only [get_token_cache, hfile, if_neg hn]
  · intro hd
    simp only [get_token_cache, hsaved]
    rw [if_pos (show now0 + 310 > now0 + d + 300 by linarith)]
  · intro hd
    simp only [get_token_cache, hsaved]
    rw [if_neg (show ¬ now0 + 310 > now0 + d + 300 by push_neg; linarith)]

/-- Witness for C5: a fresh record is a hit at elapsed 0 and a miss at
elapsed 10. -/
theorem c5_token_expiry_witness :
    get_token_cache
        (writeFile TOKEN_CACHE_FILE (FileData.tokenRec "t" 400) (fun _ => none)) 0 =
      some (FileData.tokenRec "t" 400) ∧
    get_token_cache (save_token_cache "t" 310 0
        (writeFile TOKEN_CACHE_FILE (FileData.tokenRec "t" 400) (fun _ => none))) (0 + 0) =
      some (FileData.tokenRec "t" (0 + 310)) ∧
    get_token_cache (save_token_cache "t" 310 0
        (writeFile TOKEN_CACHE_FILE (FileData.tokenRec "t" 400) (fun _ => none))) (0 + 10) =
      none := by
  have h1 := c5_token_expiry "t" 400 0 0 0
    (writeFile TOKEN_CACHE_FILE (FileData.tokenRec "t" 400) (fun _ => none))
    (by simp [writeFile])
  have h2 := c5_token_expiry "t" 400 0 0 10
    (writeFile TOKEN_CACHE_FILE (FileData.tokenRec "t" 400) (fun _ => none))
    (by simp [writeFile])
  exact ⟨h1.1.mpr (by norm_num), h1.2.2.1 (by norm_num), h2.2.2.2 (by norm_num)⟩

/-- C6 counterexample: landing on an unexpected host (neither the
target with a session cookie, nor a keycloak URL, nor a CAS URL) makes
the flow fail with the CAS-page-not-reached error — the very same
failure kind raised when a broker redirect fails to land on the
identity provider (the spec's `SSOPageNotReached`).  The code has no
distinct `UnexpectedLandingHost` kind, so the claim that this case
fails with a kind distinct from `SSOPageNotReached` is false. -/
theorem c6_counterexample :
    casLoginStep1 "https://other.example.com/" "other.example.com" [] =
      Step1Result.failure (CasError.casPageNotReached "https://other.example.com/") ∧
    ¬ ∃ e, casLoginStep1 "https://other.example.com/" "other.example.com" [] =
        Step1Result.failure e ∧ ∀ u, e ≠ CasError.casPageNotReached u := by
  have h : casLoginStep1 "https://other.example.com/" "other.example.com" [] =
      Step1Result.failure (CasError.casPageNotReached "https://other.example.com/") := by
    decide
  refine ⟨h, ?_⟩
  rintro ⟨e, he, hne⟩
  rw [h] at he
  injection he with he'
  exact hne "https://other.example.com/" he'.symm

/-- C6 (amended): in the Start state, if the final host is the target
domain and the jar holds a `session` cookie for it the flow succeeds
immediately; if the URL contains the broker marker `"keycloak"` the
flow proceeds to the broker step; and if the URL contains neither the
broker marker nor the identity-provider host `"cas.sii.edu.cn"`, the
flow fails with the CAS-page-not-reached error (the same failure kind
as `SSOPageNotReached`; the code defines no distinct
`UnexpectedLandingHost`). -/
theorem c6_start_classification (url host : String) (jar : List JarCookie) :
    (host = "qz.sii.edu.cn" → hasKey (qzCookiesOf jar) "session" = true →
      casLoginStep1 url host jar = Step1Result.success (cookieHeader (qzCookiesOf jar))) ∧
    (¬ (host = "qz.sii.edu.cn" ∧ hasKey (qzCookiesOf jar) "session" = true) →
      pyInStr "keycloak" url = true →
      casLoginStep1 url host jar = Step1Result.toBroker) ∧
    (¬ (host = "qz.sii.edu.cn" ∧ hasKey (qzCookiesOf jar) "session" = true) →
      pyInStr "keycloak" url = false → pyInStr "cas.sii.edu.cn" url = false →
      casLoginStep1 url host jar =
        Step1Result.failure (CasError.casPageNotReached url)) := by
  refine ⟨?_, ?_, ?_⟩
  · intro h1 h2
    rw [casLoginStep1, if_pos ⟨h1, h2⟩]
  · intro hn h2
    rw [casLoginStep1, if_neg hn, if_pos h2]
  · intro hn h2 h3
    rw [casLoginStep1, if_neg hn, if_neg (by rw [h2]; exact Bool.false_ne_true),
      if_pos (by rw [h3]; exact Bool.false_ne_true)]

/-- Witness for the amended C6 at a concrete already-authenticated
landing. -/
theorem c6_start_classification_witness :
    casLoginStep1 "https://qz.sii.edu.cn/" "qz.sii.edu.cn"
        [⟨"qz.sii.edu.cn", "session", "abc"⟩] =
      Step1Result.success (cookieHeader (qzCookiesOf [⟨"qz.sii.edu.cn", "session", "abc"⟩])) :=
  (c6_start_classification "https://qz.sii.edu.cn/" "qz.sii.edu.cn"
    [⟨"qz.sii.edu.cn", "session", "abc"⟩]).1 rfl (by decide)

/-- C7: when the post-login response is still on the identity-provider
host with "login" in its URL, the failure is classified from the body
in priority order — wrong-credentials markers first, then the CAPTCHA
marker, else the generic rejection — the three outcomes are pairwise
distinct, and each is a terminal failure (the check returns a raised
error, never a retry). -/
theorem c7_submitted_classification (url body : String)
    (hcas : pyInStr "cas.sii.edu.cn" url = true) (hlogin : pyInStr "login" url = true) :
    casSubmittedCheck url body = some (classifyLoginFailure body) ∧
    ((pyInStr wrongCredMarker1 body = true ∨ pyInStr wrongCredMarker2 body = true) →
      classifyLoginFailure body = CasError.badCredentials) ∧
    (pyInStr wrongCredMarker1 body = false → pyInStr wrongCredMarker2 body = false →
      pyInStr captchaMarker body = true →
      classifyLoginFailure body = CasError.captchaRequired) ∧
    (pyInStr wrongCredMarker1 body = false → pyInStr wrongCredMarker2 body = false →
      pyInStr captchaMarker body = false →
      classifyLoginFailure body = CasError.loginRejected) ∧
    (CasError.badCredentials ≠ CasError.captchaRequired ∧
      CasError.badCredentials ≠ CasError.loginRejected ∧
      CasError.captchaRequired ≠ CasError.loginRejected) := by
  refine ⟨?_, ?_, ?_, ?_, by decide, by decide, by decide⟩
  · rw [casSubmittedCheck, if_pos ⟨hcas, hlogin⟩]
  · intro h
    rw [classifyLoginFailure, if_pos h]
  · intro ha hb hc
    rw [classifyLoginFailure,
      if_neg (by rw [ha, hb]; rintro (h | h) <;> exact Bool.false_ne_true h),
      if_pos hc]
  · intro ha hb hc
    rw [classifyLoginFailure,
      if_neg (by rw [ha, hb]; rintro (h | h) <;> exact Bool.false_ne_true h),
      if_neg (by rw [hc]; exact Bool.false_ne_true)]

/-- Witness for C7: a wrong-credentials body on the login page is
classified as bad credentials. -/
theorem c7_submitted_classification_witness :
    casSubmittedCheck "https://cas.sii.edu.cn/login?service=x" "用户名或密码错误" =
      some (classifyLoginFailure "用户名或密码错误") ∧
    classifyLoginFailure "用户名或密码错误" = CasError.badCredentials := by
  have h := c7_submitted_classification "https://cas.sii.edu.cn/login?service=x"
    "用户名或密码错误" (by decide) (by decide)
  exact ⟨h.1, h.2.1 (Or.inl (by decide))⟩

/-- C8: the two credential stores are independent — every token
operation (`save_token_cache`, `clear_token_cache`, which is also what
the executor's auth-expiry branch runs) leaves the persisted cookie
record unchanged, and every cookie operation (`save_cookie`,
`clear_cookie`) leaves the persisted token record unchanged. -/
theorem c8_store_independence (tok : String) (ei now : ℚ) (ck wsid : String)
    (now2 : ℚ) (fs : FS) :
    save_token_cache tok ei now fs COOKIE_FILE = fs COOKIE_FILE ∧
    clear_token_cache fs COOKIE_FILE = fs COOKIE_FILE ∧
    save_cookie ck wsid now2 fs TOKEN_CACHE_FILE = fs TOKEN_CACHE_FILE ∧
    clear_cookie fs TOKEN_CACHE_FILE = fs TOKEN_CACHE_FILE ∧
    get_cookie (save_token_cache tok ei now fs) = get_cookie fs ∧
    get_cookie (clear_token_cache fs) = get_cookie fs ∧
    get_token_cache (save_cookie ck wsid now2 fs) now = get_token_cache fs now ∧
    get_token_cache (clear_cookie fs) now = get_token_cache fs now := by
  have hne : COOKIE_FILE ≠ TOKEN_CACHE_FILE := by decide
  have hne' : TOKEN_CACHE_FILE ≠ COOKIE_FILE := by decide
  refine ⟨?_, ?_, ?_, ?_, ?_, ?_, ?_, ?_⟩ <;>
    simp [save_token_cache, clear_token_cache, save_cookie, clear_cookie,
      writeFile, unlinkFile, get_cookie, get_token_cache, hne, hne']

/-- C9 counterexample: `save_token_cache` is not an atomic replace —
between `open(path, "w")` and the completed `json.dump` a concurrent
reader observes a truncated file, which is neither the old complete
record nor the new complete record. -/
theorem c9_counterexample :
    ¬ ∀ st ∈ save_token_cache_trace "new" 604800 0
        (writeFile TOKEN_CACHE_FILE (FileData.tokenRec "old" 1000) (fun _ => none)),
      st TOKEN_CACHE_FILE = some (FileData.tokenRec "old" 1000) ∨
      st TOKEN_CACHE_FILE = some (FileData.tokenRec "new" ((0 : ℚ) + 604800)) := by
  intro hall
  have hmem : pyOpenTruncate TOKEN_CACHE_FILE
      (writeFile TOKEN_CACHE_FILE (FileData.tokenRec "old" 1000) (fun _ => none)) ∈
      save_token_cache_trace "new" 604800 0
        (writeFile TOKEN_CACHE_FILE (FileData.tokenRec "old" 1000) (fun _ => none)) := by
    simp [save_token_cache_trace]
  have hobs : (pyOpenTruncate TOKEN_CACHE_FILE
      (writeFile TOKEN_CACHE_FILE (FileData.tokenRec "old" 1000) (fun _ => none)))
      TOKEN_CACHE_FILE = some FileData.truncated := by
    simp [pyOpenTruncate, writeFile]
  rcases hall _ hmem with hcase | hcase <;> rw [hobs] at hcase <;> simp at hcase

/-- C9 (amended): `save_token_cache` and `save_cookie` write in place
by truncate-then-write (`open(path, "w")` then `json.dump`): a reader
interleaved between the two steps observes a truncated record —
which the readers treat as a miss — and only the final state of the
write holds the complete new record.  No atomic replace is performed. -/
theorem c9_truncate_then_write (tok : String) (ei now : ℚ) (ck wsid : String)
    (now2 : ℚ) (fs : FS) :
    (save_token_cache_trace tok ei now fs).head? = some fs ∧
    pyOpenTruncate TOKEN_CACHE_FILE fs ∈ save_token_cache_trace tok ei now fs ∧
    (pyOpenTruncate TOKEN_CACHE_FILE fs) TOKEN_CACHE_FILE = some FileData.truncated ∧
    get_token_cache (pyOpenTruncate TOKEN_CACHE_FILE fs) now = none ∧
    ((save_token_cache_trace tok ei now fs).getLast?.map
        (fun st => st TOKEN_CACHE_FILE)) =
      some (some (FileData.tokenRec tok (now + ei))) ∧
    pyOpenTruncate COOKIE_FILE fs ∈ save_cookie_trace ck wsid now2 fs ∧
    (pyOpenTruncate COOKIE_FILE fs) COOKIE_FILE = some FileData.truncated ∧
    get_cookie (pyOpenTruncate COOKIE_FILE fs) = none ∧
    ((save_cookie_trace ck wsid now2 fs).getLast?.map (fun st => st COOKIE_FILE)) =
      some (some (FileData.cookieRec ck wsid now2)) := by
  refine ⟨rfl, ?_, ?_, ?_, ?_, ?_, ?_, ?_, ?_⟩ <;>
    simp [save_token_cache_trace, save_cookie_trace, pyOpenTruncate, writeFile,
      get_token_cache, get_cookie]

/-- C10: a persisted token or cookie record that is missing, truncated,
or malformed makes `get_token_cache`/`get_cookie` report a miss (the
`JSONDecodeError`/`IOError` handlers return `None`) instead of raising,
so a corrupted cache file only forces re-authentication. -/
theorem c10_corrupt_cache_is_miss (fs : FS) (now : ℚ) :
    (fs TOKEN_CACHE_FILE = some FileData.corrupt → get_token_cache fs now = none) ∧
    (fs TOKEN_CACHE_FILE = some FileData.truncated → get_token_cache fs now = none) ∧
    (fs TOKEN_CACHE_FILE = none → get_token_cache fs now = none) ∧
    (fs COOKIE_FILE = some FileData.corrupt → get_cookie fs = none) ∧
    (fs COOKIE_FILE = some FileData.truncated → get_cookie fs = none) ∧
    (fs COOKIE_FILE = none → get_cookie fs = none) := by
  refine ⟨?_, ?_, ?_, ?_, ?_, ?_⟩ <;> intro h <;> simp [get_token_cache, get_cookie, h]

/-- Witness for C10 at a file system whose files are all corrupt. -/
theorem c10_corrupt_cache_is_miss_witness :
    get_token_cache (fun _ => some FileData.corrupt) 0 = none ∧
      get_cookie (fun _ => some FileData.corrupt) = none := by
  have h := c10_corrupt_cache_is_miss (fun _ => some FileData.corrupt) 0
  exact ⟨h.1 rfl, h.2.2.2.1 rfl⟩

end Qzcli
